import Mathlib

/-!
Verification of the Langton's Ant stepping engine
(`src/langtons-ant/src/main.rs`).

The stepping engine consists of the `Ant`, `Row` and `Grid` structures, the
four `move_from_*` helpers and `compute_ant_position`.  Machine integers
(`usize`, `u64`) are modelled as `Nat` with the source's explicit comparisons
against the maximum values (`usize::max_value()` is the unpainted sentinel,
`u64::max_value()` is the iteration-counter saturation point; both are
`2^64 - 1` on the 64-bit targets the program is built for).  A Rust indexing
panic is modelled by the stepper returning `none`.
-/

/-- The value `usize::max_value()` on a 64-bit target: the unpainted-cell sentinel. -/
def usizeMax : Nat := 2 ^ 64 - 1

/-- The value `u64::max_value()`: the saturation point of the iteration counter. -/
def u64Max : Nat := 2 ^ 64 - 1

/-- Colour information (`struct Colour`).  The stepping engine never reads the
components; only the palette's length matters to it. -/
structure Colour where
  r : Float
  g : Float
  b : Float
  a : Float

/-- Turn direction (`enum Direction`). -/
inductive Direction where
  | L
  | R
deriving DecidableEq, Repr

/-- The way the ant is pointing (`enum Facing`). -/
inductive Facing where
  | N
  | E
  | S
  | W
deriving DecidableEq, Repr

/-- The ant (`struct Ant`): position, movement rule, associated colours,
facing, stall flag and iteration count. -/
structure Ant where
  pos_x : Nat
  pos_y : Nat
  rule : List Direction
  colours : List Colour
  facing : Facing
  stalled : Bool
  iterations : Nat

/-- One grid row (`struct Row`): the colour code of each cell in the row. -/
structure Row where
  cells : List Nat

/-- Constructor `Row::new`: `num_cells` cells all set to `clr_idx`. -/
def Row.new (num_cells : Nat) (clr_idx : Nat) : Row :=
  ⟨List.replicate num_cells clr_idx⟩

/-- The grid (`struct Grid`): a list of rows; cell `(x, y)` is
`rows[y].cells[x]`. -/
structure Grid where
  rows : List Row

/-- Constructor `Grid::new`: `num_rows` rows of `num_cols` cells all set to `clr_idx`. -/
def Grid.new (num_rows num_cols clr_idx : Nat) : Grid :=
  ⟨List.replicate num_rows (Row.new num_cols clr_idx)⟩

/-- Cell `(x, y)` of the grid, `none` when out of range
(`grid.rows[y].cells[x]` in the source). -/
def cellAt (grid : Grid) (x y : Nat) : Option Nat :=
  match grid.rows[y]? with
  | none => none
  | some row => row.cells[x]?

/-- Function `move_from_north`: move the ant that was facing North after it turns. -/
def move_from_north (ant_dir : Direction) (dim : Nat) (ant : Ant) : Ant :=
  match ant_dir with
  | Direction.L =>
    let a := { ant with facing := Facing.W }
    if 0 = a.pos_x then { a with stalled := true }
    else { a with pos_x := a.pos_x - 1 }
  | Direction.R =>
    let a := { ant with facing := Facing.E }
    if dim - 1 = a.pos_x then { a with stalled := true }
    else { a with pos_x := a.pos_x + 1 }

/-- Function `move_from_east`: move the ant that was facing East after it turns. -/
def move_from_east (ant_dir : Direction) (dim : Nat) (ant : Ant) : Ant :=
  match ant_dir with
  | Direction.L =>
    let a := { ant with facing := Facing.N }
    if 0 = a.pos_y then { a with stalled := true }
    else { a with pos_y := a.pos_y - 1 }
  | Direction.R =>
    let a := { ant with facing := Facing.S }
    if dim - 1 = a.pos_y then { a with stalled := true }
    else { a with pos_y := a.pos_y + 1 }

/-- Function `move_from_south`: move the ant that was facing South after it turns. -/
def move_from_south (ant_dir : Direction) (dim : Nat) (ant : Ant) : Ant :=
  match ant_dir with
  | Direction.L =>
    let a := { ant with facing := Facing.E }
    if dim - 1 = a.pos_x then { a with stalled := true }
    else { a with pos_x := a.pos_x + 1 }
  | Direction.R =>
    let a := { ant with facing := Facing.W }
    if 0 = a.pos_x then { a with stalled := true }
    else { a with pos_x := a.pos_x - 1 }

/-- Function `move_from_west`: move the ant that was facing West after it turns. -/
def move_from_west (ant_dir : Direction) (dim : Nat) (ant : Ant) : Ant :=
  match ant_dir with
  | Direction.L =>
    let a := { ant with facing := Facing.S }
    if dim - 1 = a.pos_y then { a with stalled := true }
    else { a with pos_y := a.pos_y + 1 }
  | Direction.R =>
    let a := { ant with facing := Facing.N }
    if 0 = a.pos_y then { a with stalled := true }
    else { a with pos_y := a.pos_y - 1 }

/-- The `match ant.facing` dispatch at the end of `compute_ant_position`. -/
def move_ant (ant_dir : Direction) (dim : Nat) (ant : Ant) : Ant :=
  match ant.facing with
  | Facing.N => move_from_north ant_dir dim ant
  | Facing.E => move_from_east ant_dir dim ant
  | Facing.S => move_from_south ant_dir dim ant
  | Facing.W => move_from_west ant_dir dim ant

/-- Function `compute_ant_position`: one step of the automaton.  Returns the updated
ant and grid, or `none` where the Rust code would panic on an out-of-range
index (grid access or rule lookup). -/
def compute_ant_position (ant : Ant) (grid : Grid) : Option (Ant × Grid) :=
  if ant.stalled then
    some (ant, grid)
  else
    match grid.rows[ant.pos_y]? with
    | none => none
    | some row =>
      match row.cells[ant.pos_x]? with
      | none => none
      | some cell =>
        let cell_clr_idx := if cell = usizeMax then 0 else cell
        match ant.rule[cell_clr_idx]? with
        | none => none
        | some ant_dir =>
          let cell_clr_idx := cell_clr_idx + 1
          let cell_clr_idx :=
            if ant.colours.length = cell_clr_idx then 0 else cell_clr_idx
          let grid2 : Grid :=
            ⟨grid.rows.set ant.pos_y ⟨row.cells.set ant.pos_x cell_clr_idx⟩⟩
          let dim := grid2.rows.length
          let ant2 := move_ant ant_dir dim ant
          let ant3 :=
            if ant2.iterations = u64Max then { ant2 with stalled := true }
            else { ant2 with iterations := ant2.iterations + 1 }
          some (ant3, grid2)

/-- The iteration-count saturation check closing `compute_ant_position`
(lines 466–470 of the source), factored for reasoning. -/
def tick (a : Ant) : Ant :=
  if a.iterations = u64Max then { a with stalled := true }
  else { a with iterations := a.iterations + 1 }

theorem tick_pos_x (a : Ant) : (tick a).pos_x = a.pos_x := by
  unfold tick; split <;> rfl

theorem tick_pos_y (a : Ant) : (tick a).pos_y = a.pos_y := by
  unfold tick; split <;> rfl

theorem tick_facing (a : Ant) : (tick a).facing = a.facing := by
  unfold tick; split <;> rfl

theorem tick_rule (a : Ant) : (tick a).rule = a.rule := by
  unfold tick; split <;> rfl

theorem tick_colours (a : Ant) : (tick a).colours = a.colours := by
  unfold tick; split <;> rfl

theorem tick_stalled (a : Ant) :
    (tick a).stalled = if a.iterations = u64Max then true else a.stalled := by
  unfold tick; split <;> rfl

theorem tick_iterations (a : Ant) :
    (tick a).iterations =
      if a.iterations = u64Max then a.iterations else a.iterations + 1 := by
  unfold tick; split <;> rfl

theorem move_ant_iterations (d : Direction) (dim : Nat) (a : Ant) :
    (move_ant d dim a).iterations = a.iterations := by
  unfold move_ant move_from_north move_from_east move_from_south move_from_west
  cases a.facing <;> cases d <;> dsimp only <;> split <;> rfl

theorem move_ant_rule (d : Direction) (dim : Nat) (a : Ant) :
    (move_ant d dim a).rule = a.rule := by
  unfold move_ant move_from_north move_from_east move_from_south move_from_west
  cases a.facing <;> cases d <;> dsimp only <;> split <;> rfl

theorem move_ant_colours (d : Direction) (dim : Nat) (a : Ant) :
    (move_ant d dim a).colours = a.colours := by
  unfold move_ant move_from_north move_from_east move_from_south move_from_west
  cases a.facing <;> cases d <;> dsimp only <;> split <;> rfl

/-- Characterization of a non-stalled step whose three lookups succeed:
it paints the current cell with the incremented (wrapping) colour index,
moves the ant according to the looked-up direction, then applies the
iteration-saturation check. -/
theorem compute_ant_position_eq (ant : Ant) (grid : Grid) (row : Row)
    (c0 : Nat) (d : Direction)
    (h0 : ant.stalled = false)
    (hrow : grid.rows[ant.pos_y]? = some row)
    (hcell : row.cells[ant.pos_x]? = some c0)
    (hrule : ant.rule[if c0 = usizeMax then 0 else c0]? = some d) :
    compute_ant_position ant grid =
      some (tick (move_ant d grid.rows.length ant),
        ⟨grid.rows.set ant.pos_y
          ⟨row.cells.set ant.pos_x
            (if ant.colours.length = (if c0 = usizeMax then 0 else c0) + 1
             then 0 else (if c0 = usizeMax then 0 else c0) + 1)⟩⟩) := by
  simp only [compute_ant_position, h0, Bool.false_eq_true, if_false, hrow,
    hcell, hrule, List.length_set, tick]

/-- Inversion of a successful step: it is either a stalled no-op or the
paint–move–tick combination of `compute_ant_position_eq`. -/
theorem compute_ant_position_inv (ant : Ant) (grid : Grid)
    (ant' : Ant) (grid' : Grid)
    (hstep : compute_ant_position ant grid = some (ant', grid')) :
    (ant.stalled = true ∧ ant' = ant ∧ grid' = grid) ∨
    (∃ row c0 d, ant.stalled = false ∧
      grid.rows[ant.pos_y]? = some row ∧
      row.cells[ant.pos_x]? = some c0 ∧
      ant.rule[if c0 = usizeMax then 0 else c0]? = some d ∧
      ant' = tick (move_ant d grid.rows.length ant) ∧
      grid' = ⟨grid.rows.set ant.pos_y
        ⟨row.cells.set ant.pos_x
          (if ant.colours.length = (if c0 = usizeMax then 0 else c0) + 1
           then 0 else (if c0 = usizeMax then 0 else c0) + 1)⟩⟩) := by
  by_cases h0 : ant.stalled
  · left
    simp only [compute_ant_position, h0, if_true, Option.some.injEq,
      Prod.mk.injEq] at hstep
    exact ⟨h0, hstep.1.symm, hstep.2.symm⟩
  · right
    rw [Bool.not_eq_true] at h0
    cases hrow : grid.rows[ant.pos_y]? with
    | none =>
      simp [compute_ant_position, h0, hrow] at hstep
    | some row =>
      cases hcell : row.cells[ant.pos_x]? with
      | none =>
        simp [compute_ant_position, h0, hrow, hcell] at hstep
      | some c0 =>
        cases hrule : ant.rule[if c0 = usizeMax then 0 else c0]? with
        | none =>
          simp [compute_ant_position, h0, hrow, hcell, hrule] at hstep
        | some d =>
          refine ⟨row, c0, d, h0, rfl, hcell, hrule, ?_⟩
          rw [compute_ant_position_eq ant grid row c0 d h0 hrow hcell hrule]
            at hstep
          simp only [Option.some.injEq, Prod.mk.injEq] at hstep
          exact ⟨hstep.1.symm, hstep.2.symm⟩

/-- Boundary behaviour of the move dispatch: positions stay inside the grid. -/
theorem move_ant_pos_bounds (d : Direction) (dim : Nat) (a : Ant)
    (hx : a.pos_x < dim) (hy : a.pos_y < dim) :
    (move_ant d dim a).pos_x < dim ∧ (move_ant d dim a).pos_y < dim := by
  unfold move_ant move_from_north move_from_east move_from_south move_from_west
  cases a.facing <;> cases d <;> dsimp only <;> split <;>
    refine ⟨?_, ?_⟩ <;> simp <;> omega

/-- Modelled from the spec: the 4×2 facing-composition table of §4.3
(North: Left→West, Right→East; East: Left→North, Right→South;
South: Left→East, Right→West; West: Left→South, Right→North). -/
def specNewFacing : Facing → Direction → Facing
  | Facing.N, Direction.L => Facing.W
  | Facing.N, Direction.R => Facing.E
  | Facing.E, Direction.L => Facing.N
  | Facing.E, Direction.R => Facing.S
  | Facing.S, Direction.L => Facing.E
  | Facing.S, Direction.R => Facing.W
  | Facing.W, Direction.L => Facing.S
  | Facing.W, Direction.R => Facing.N

/-- Modelled from the spec: the x-component of the unit displacement of a
facing (North → 0, East → +1, South → 0, West → −1). -/
def specDx : Facing → Int
  | Facing.N => 0
  | Facing.E => 1
  | Facing.S => 0
  | Facing.W => -1

/-- Modelled from the spec: the y-component of the unit displacement of a
facing (North → −1, East → 0, South → +1, West → 0). -/
def specDy : Facing → Int
  | Facing.N => -1
  | Facing.E => 0
  | Facing.S => 1
  | Facing.W => 0

/-- Modelled from the spec: the displaced position leaves the board
(`x` or `y` outside `[0, dim)`). -/
def outOfRange (dim : Nat) (x y : Int) : Prop :=
  x < 0 ∨ (dim : Int) ≤ x ∨ y < 0 ∨ (dim : Int) ≤ y

instance (dim : Nat) (x y : Int) : Decidable (outOfRange dim x y) := by
  unfold outOfRange; infer_instance

/-- The move dispatch sets the facing per the spec table and either stalls in
place or applies the displacement of the new facing. -/
theorem move_ant_basic (d : Direction) (dim : Nat) (a : Ant) :
    (move_ant d dim a).facing = specNewFacing a.facing d ∧
    (((move_ant d dim a).stalled = true ∧
      (move_ant d dim a).pos_x = a.pos_x ∧
      (move_ant d dim a).pos_y = a.pos_y) ∨
     ((move_ant d dim a).stalled = a.stalled ∧
      ((move_ant d dim a).pos_x : Int) =
        (a.pos_x : Int) + specDx (specNewFacing a.facing d) ∧
      ((move_ant d dim a).pos_y : Int) =
        (a.pos_y : Int) + specDy (specNewFacing a.facing d))) := by
  unfold move_ant move_from_north move_from_east move_from_south move_from_west
  cases a.facing <;> cases d <;>
    dsimp only [specNewFacing, specDx, specDy] <;>
    split_ifs with hb <;>
    first
      | exact ⟨rfl, Or.inl ⟨rfl, rfl, rfl⟩⟩
      | exact ⟨rfl, Or.inr ⟨rfl, by dsimp only; omega, by dsimp only; omega⟩⟩

/-- When the ant starts inside the board, the move dispatch stalls exactly
when the displacement of the new facing would leave the board, and otherwise
applies it. -/
theorem move_ant_guard (d : Direction) (dim : Nat) (a : Ant)
    (hx : a.pos_x < dim) (hy : a.pos_y < dim) :
    (outOfRange dim ((a.pos_x : Int) + specDx (specNewFacing a.facing d))
        ((a.pos_y : Int) + specDy (specNewFacing a.facing d)) →
      (move_ant d dim a).stalled = true ∧
      (move_ant d dim a).pos_x = a.pos_x ∧
      (move_ant d dim a).pos_y = a.pos_y) ∧
    (¬ outOfRange dim ((a.pos_x : Int) + specDx (specNewFacing a.facing d))
        ((a.pos_y : Int) + specDy (specNewFacing a.facing d)) →
      ((move_ant d dim a).pos_x : Int) =
        (a.pos_x : Int) + specDx (specNewFacing a.facing d) ∧
      ((move_ant d dim a).pos_y : Int) =
        (a.pos_y : Int) + specDy (specNewFacing a.facing d)) := by
  unfold move_ant move_from_north move_from_east move_from_south move_from_west
  cases a.facing <;> cases d <;>
    dsimp only [specNewFacing, specDx, specDy] <;>
    split_ifs with hb <;>
    refine ⟨fun h => ?_, fun h => ?_⟩ <;>
    first
      | exact ⟨rfl, rfl, rfl⟩
      | (exfalso; unfold outOfRange at h; omega)
      | (unfold outOfRange at h; dsimp only; constructor <;> omega)

/-- Observable part of a state: position, facing, stall flag and cell
colours (the colour palette itself carries no engine state). -/
def obs (p : Ant × Grid) : Nat × Nat × Facing × Bool × List (List Nat) :=
  (p.1.pos_x, p.1.pos_y, p.1.facing, p.1.stalled, p.2.rows.map Row.cells)

/-- A concrete 2-colour palette for concrete runs (values are irrelevant to
the engine). -/
def palette2 : List Colour :=
  [⟨0.2, 0.4, 0.6, 1.0⟩, ⟨0.8, 0.3, 0.1, 1.0⟩]

/-- The §8 end-to-end scenario's ant: rule "RL", at (1,1) facing North. -/
def c3Ant : Ant :=
  { pos_x := 1, pos_y := 1, rule := [Direction.R, Direction.L],
    colours := palette2, facing := Facing.N, stalled := false,
    iterations := 0 }

/-- The §8 end-to-end scenario's grid: 3×3, all unpainted. -/
def c3Grid : Grid := Grid.new 3 3 usizeMax

/-- C3: with rule "RL", dim = 3, ant at (1,1) facing North on an all-unpainted
grid, three steps paint (1,1), (2,1), (2,2) to colour 1 and take the ant to
(2,1) facing East, then (2,2) facing South, then (1,2) facing West, never
stalling. -/
theorem rl_three_step_trace :
    (compute_ant_position c3Ant c3Grid).map obs =
      some (2, 1, Facing.E, false,
        [[usizeMax, usizeMax, usizeMax],
         [usizeMax, 1, usizeMax],
         [usizeMax, usizeMax, usizeMax]]) ∧
    ((compute_ant_position c3Ant c3Grid).bind
        (fun p => compute_ant_position p.1 p.2)).map obs =
      some (2, 2, Facing.S, false,
        [[usizeMax, usizeMax, usizeMax],
         [usizeMax, 1, 1],
         [usizeMax, usizeMax, usizeMax]]) ∧
    (((compute_ant_position c3Ant c3Grid).bind
        (fun p => compute_ant_position p.1 p.2)).bind
        (fun p => compute_ant_position p.1 p.2)).map obs =
      some (1, 2, Facing.W, false,
        [[usizeMax, usizeMax, usizeMax],
         [usizeMax, 1, 1],
         [usizeMax, usizeMax, 1]]) := by
  refine ⟨?_, ?_, ?_⟩ <;> rfl

/-- C1: on a non-stalled step the new facing is the composition of the old
facing with the looked-up turn per the 4×2 table, and the attempted unit
displacement is the one associated with the new facing — either it is
applied, or the ant stalls in place. -/
theorem step_facing_displacement_table (ant : Ant) (grid : Grid) (row : Row)
    (c0 : Nat) (d : Direction) (ant' : Ant) (grid' : Grid)
    (h0 : ant.stalled = false)
    (hrow : grid.rows[ant.pos_y]? = some row)
    (hcell : row.cells[ant.pos_x]? = some c0)
    (hrule : ant.rule[if c0 = usizeMax then 0 else c0]? = some d)
    (hstep : compute_ant_position ant grid = some (ant', grid')) :
    ant'.facing = specNewFacing ant.facing d ∧
    ((ant'.stalled = true ∧ ant'.pos_x = ant.pos_x ∧ ant'.pos_y = ant.pos_y) ∨
     ((ant'.pos_x : Int) =
        (ant.pos_x : Int) + specDx (specNewFacing ant.facing d) ∧
      (ant'.pos_y : Int) =
        (ant.pos_y : Int) + specDy (specNewFacing ant.facing d))) := by
  rw [compute_ant_position_eq ant grid row c0 d h0 hrow hcell hrule] at hstep
  simp only [Option.some.injEq, Prod.mk.injEq] at hstep
  obtain ⟨ha, -⟩ := hstep
  subst ha
  obtain ⟨hf, hmove⟩ := move_ant_basic d grid.rows.length ant
  refine ⟨by rw [tick_facing, hf], ?_⟩
  rcases hmove with ⟨hs, hx', hy'⟩ | ⟨-, hx', hy'⟩
  · exact Or.inl ⟨by rw [tick_stalled, hs]; split <;> rfl,
      by rw [tick_pos_x, hx'], by rw [tick_pos_y, hy']⟩
  · exact Or.inr ⟨by rw [tick_pos_x]; exact hx', by rw [tick_pos_y]; exact hy'⟩

/-- The grid state after the first step of the §8 scenario. -/
def c3Grid1 : Grid :=
  ⟨[Row.new 3 usizeMax, ⟨[usizeMax, 1, usizeMax]⟩, Row.new 3 usizeMax]⟩

/-- The ant state after the first step of the §8 scenario. -/
def c3Ant1 : Ant :=
  { pos_x := 2, pos_y := 1, rule := [Direction.R, Direction.L],
    colours := palette2, facing := Facing.E, stalled := false,
    iterations := 1 }

/-- Witness for `step_facing_displacement_table` at the first §8 step. -/
theorem step_facing_displacement_table_witness :
    c3Ant.stalled = false ∧
    compute_ant_position c3Ant c3Grid = some (c3Ant1, c3Grid1) ∧
    (c3Ant1.facing = specNewFacing c3Ant.facing Direction.R ∧
     ((c3Ant1.stalled = true ∧ c3Ant1.pos_x = c3Ant.pos_x ∧
       c3Ant1.pos_y = c3Ant.pos_y) ∨
      ((c3Ant1.pos_x : Int) =
         (c3Ant.pos_x : Int) + specDx (specNewFacing c3Ant.facing Direction.R) ∧
       (c3Ant1.pos_y : Int) =
         (c3Ant.pos_y : Int) +
           specDy (specNewFacing c3Ant.facing Direction.R)))) :=
  ⟨rfl, rfl,
    step_facing_displacement_table c3Ant c3Grid (Row.new 3 usizeMax) usizeMax
      Direction.R c3Ant1 c3Grid1 rfl rfl rfl (by rfl) rfl⟩

/-- C5: on a non-stalled step from an in-board position, the ant stalls in
place exactly when the displacement of the new facing would leave `[0, dim)`,
and otherwise the displacement is applied; the position stays inside the
board either way. -/
theorem step_boundary_stall (ant : Ant) (grid : Grid) (row : Row)
    (c0 : Nat) (d : Direction) (ant' : Ant) (grid' : Grid)
    (h0 : ant.stalled = false)
    (hx : ant.pos_x < grid.rows.length)
    (hy : ant.pos_y < grid.rows.length)
    (hrow : grid.rows[ant.pos_y]? = some row)
    (hcell : row.cells[ant.pos_x]? = some c0)
    (hrule : ant.rule[if c0 = usizeMax then 0 else c0]? = some d)
    (hstep : compute_ant_position ant grid = some (ant', grid')) :
    (outOfRange grid.rows.length
        ((ant.pos_x : Int) + specDx (specNewFacing ant.facing d))
        ((ant.pos_y : Int) + specDy (specNewFacing ant.facing d)) →
      ant'.stalled = true ∧ ant'.pos_x = ant.pos_x ∧
        ant'.pos_y = ant.pos_y) ∧
    (¬ outOfRange grid.rows.length
        ((ant.pos_x : Int) + specDx (specNewFacing ant.facing d))
        ((ant.pos_y : Int) + specDy (specNewFacing ant.facing d)) →
      (ant'.pos_x : Int) =
        (ant.pos_x : Int) + specDx (specNewFacing ant.facing d) ∧
      (ant'.pos_y : Int) =
        (ant.pos_y : Int) + specDy (specNewFacing ant.facing d)) ∧
    ant'.pos_x < grid.rows.length ∧ ant'.pos_y < grid.rows.length := by
  rw [compute_ant_position_eq ant grid row c0 d h0 hrow hcell hrule] at hstep
  simp only [Option.some.injEq, Prod.mk.injEq] at hstep
  obtain ⟨ha, -⟩ := hstep
  subst ha
  obtain ⟨g1, g2⟩ := move_ant_guard d grid.rows.length ant hx hy
  refine ⟨fun h => ?_, fun h => ?_, ?_, ?_⟩
  · obtain ⟨hs, hpx, hpy⟩ := g1 h
    exact ⟨by rw [tick_stalled, hs]; split <;> rfl,
      by rw [tick_pos_x, hpx], by rw [tick_pos_y, hpy]⟩
  · obtain ⟨hpx, hpy⟩ := g2 h
    exact ⟨by rw [tick_pos_x]; exact hpx, by rw [tick_pos_y]; exact hpy⟩
  · rw [tick_pos_x]
    exact (move_ant_pos_bounds d grid.rows.length ant hx hy).1
  · rw [tick_pos_y]
    exact (move_ant_pos_bounds d grid.rows.length ant hx hy).2

/-- Witness for `step_boundary_stall` at the first §8 step (in-range move). -/
theorem step_boundary_stall_witness :
    c3Ant.stalled = false ∧ c3Ant.pos_x < c3Grid.rows.length ∧
    compute_ant_position c3Ant c3Grid = some (c3Ant1, c3Grid1) ∧
    ((¬ outOfRange c3Grid.rows.length
        ((c3Ant.pos_x : Int) + specDx (specNewFacing c3Ant.facing Direction.R))
        ((c3Ant.pos_y : Int) +
          specDy (specNewFacing c3Ant.facing Direction.R)) →
      (c3Ant1.pos_x : Int) =
        (c3Ant.pos_x : Int) + specDx (specNewFacing c3Ant.facing Direction.R) ∧
      (c3Ant1.pos_y : Int) =
        (c3Ant.pos_y : Int) +
          specDy (specNewFacing c3Ant.facing Direction.R)) ∧
     c3Ant1.pos_x < c3Grid.rows.length ∧
     c3Ant1.pos_y < c3Grid.rows.length) :=
  ⟨rfl, by decide, rfl,
    (step_boundary_stall c3Ant c3Grid (Row.new 3 usizeMax) usizeMax
      Direction.R c3Ant1 c3Grid1 rfl (by decide) (by decide) rfl rfl
      (by rfl) rfl).2⟩

/-- C6: on a non-stalled step, a counter already at `u64::max_value()` is
left unchanged and the ant is marked stalled; otherwise the counter is
incremented by exactly one. -/
theorem step_counter_saturation (ant : Ant) (grid : Grid) (row : Row)
    (c0 : Nat) (d : Direction) (ant' : Ant) (grid' : Grid)
    (h0 : ant.stalled = false)
    (hrow : grid.rows[ant.pos_y]? = some row)
    (hcell : row.cells[ant.pos_x]? = some c0)
    (hrule : ant.rule[if c0 = usizeMax then 0 else c0]? = some d)
    (hstep : compute_ant_position ant grid = some (ant', grid')) :
    (ant.iterations = u64Max →
      ant'.stalled = true ∧ ant'.iterations = ant.iterations) ∧
    (ant.iterations ≠ u64Max → ant'.iterations = ant.iterations + 1) := by
  rw [compute_ant_position_eq ant grid row c0 d h0 hrow hcell hrule] at hstep
  simp only [Option.some.injEq, Prod.mk.injEq] at hstep
  obtain ⟨ha, -⟩ := hstep
  subst ha
  constructor
  · intro h
    constructor
    · rw [tick_stalled, move_ant_iterations, h, if_pos rfl]
    · rw [tick_iterations, move_ant_iterations, h, if_pos rfl]
  · intro h
    rw [tick_iterations, move_ant_iterations, if_neg h]

/-- Witness for `step_counter_saturation` at the first §8 step. -/
theorem step_counter_saturation_witness :
    c3Ant.stalled = false ∧
    compute_ant_position c3Ant c3Grid = some (c3Ant1, c3Grid1) ∧
    (c3Ant.iterations ≠ u64Max → c3Ant1.iterations = c3Ant.iterations + 1) :=
  ⟨rfl, rfl,
    (step_counter_saturation c3Ant c3Grid (Row.new 3 usizeMax) usizeMax
      Direction.R c3Ant1 c3Grid1 rfl rfl rfl (by rfl) rfl).2⟩

/-- The §8 scenario's ant with its counter forced to the maximum. -/
def c9Ant : Ant := { c3Ant with iterations := u64Max }

/-- C9 counterexample: stepping a non-stalled ant whose counter is at
`u64::max_value()` still performs the move — the ant leaves (1,1) for (2,1)
before being marked stalled, so the position is not left unchanged. -/
theorem overflow_step_moves_cex :
    c9Ant.stalled = false ∧ c9Ant.iterations = u64Max ∧
    (compute_ant_position c9Ant c3Grid).map
        (fun p => (p.1.pos_x, p.1.pos_y, p.1.stalled)) =
      some (2, 1, true) := by
  exact ⟨rfl, rfl, by rfl⟩

/-- C9 (amended): when the counter is at `u64::max_value()`, a non-stalled
step first performs the move for that step (repaint, turn and position
update), then sets `stalled` to true and leaves the counter unchanged. -/
theorem overflow_step_moves_then_stalls (ant : Ant) (grid : Grid) (row : Row)
    (c0 : Nat) (d : Direction) (ant' : Ant) (grid' : Grid)
    (h0 : ant.stalled = false)
    (hiter : ant.iterations = u64Max)
    (hrow : grid.rows[ant.pos_y]? = some row)
    (hcell : row.cells[ant.pos_x]? = some c0)
    (hrule : ant.rule[if c0 = usizeMax then 0 else c0]? = some d)
    (hstep : compute_ant_position ant grid = some (ant', grid')) :
    ant'.stalled = true ∧ ant'.iterations = u64Max ∧
    ant'.pos_x = (move_ant d grid.rows.length ant).pos_x ∧
    ant'.pos_y = (move_ant d grid.rows.length ant).pos_y ∧
    ant'.facing = (move_ant d grid.rows.length ant).facing := by
  rw [compute_ant_position_eq ant grid row c0 d h0 hrow hcell hrule] at hstep
  simp only [Option.some.injEq, Prod.mk.injEq] at hstep
  obtain ⟨ha, -⟩ := hstep
  subst ha
  refine ⟨?_, ?_, tick_pos_x _, tick_pos_y _, tick_facing _⟩
  · rw [tick_stalled, move_ant_iterations, hiter, if_pos rfl]
  · rw [tick_iterations, move_ant_iterations, hiter, if_pos rfl]

/-- The result of stepping `c9Ant`: moved to (2,1), stalled, counter
unchanged. -/
def c9Ant1 : Ant :=
  { pos_x := 2, pos_y := 1, rule := [Direction.R, Direction.L],
    colours := palette2, facing := Facing.E, stalled := true,
    iterations := u64Max }

/-- Witness for `overflow_step_moves_then_stalls` at a concrete state. -/
theorem overflow_step_moves_then_stalls_witness :
    c9Ant.stalled = false ∧ c9Ant.iterations = u64Max ∧
    compute_ant_position c9Ant c3Grid = some (c9Ant1, c3Grid1) ∧
    (c9Ant1.stalled = true ∧ c9Ant1.iterations = u64Max ∧
     c9Ant1.pos_x = (move_ant Direction.R c3Grid.rows.length c9Ant).pos_x ∧
     c9Ant1.pos_y = (move_ant Direction.R c3Grid.rows.length c9Ant).pos_y ∧
     c9Ant1.facing = (move_ant Direction.R c3Grid.rows.length c9Ant).facing) :=
  ⟨rfl, rfl, rfl,
    overflow_step_moves_then_stalls c9Ant c3Grid (Row.new 3 usizeMax) usizeMax
      Direction.R c9Ant1 c3Grid1 rfl rfl rfl rfl (by rfl) rfl⟩

/-- Reading back the freshly written cell. -/
theorem cellAt_set_self (grid : Grid) (px py v : Nat) (row : Row)
    (hrow : grid.rows[py]? = some row) (hx : px < row.cells.length) :
    cellAt ⟨grid.rows.set py ⟨row.cells.set px v⟩⟩ px py = some v := by
  have hylt : py < grid.rows.length := (List.getElem?_eq_some_iff.mp hrow).1
  unfold cellAt
  rw [List.getElem?_set_self hylt]
  dsimp only
  rw [List.getElem?_set_self hx]

/-- Writing one cell leaves every other cell unchanged. -/
theorem set_cell_frame (grid : Grid) (px py v : Nat) (row : Row)
    (hrow : grid.rows[py]? = some row) :
    ∀ x y, ¬(x = px ∧ y = py) →
      cellAt ⟨grid.rows.set py ⟨row.cells.set px v⟩⟩ x y = cellAt grid x y := by
  intro x y hxy
  unfold cellAt
  by_cases hy : y = py
  · subst hy
    have hylt : y < grid.rows.length := (List.getElem?_eq_some_iff.mp hrow).1
    rw [List.getElem?_set_self hylt, hrow]
    dsimp only
    have hx : px ≠ x := fun h => hxy ⟨h.symm, rfl⟩
    rw [List.getElem?_set_ne hx]
  · rw [List.getElem?_set_ne (fun h => hy h.symm)]

/-- C2: a non-stalled step looks the turn up at `rule[c]` with the sentinel
read as 0, and rewrites the cell to `(c + 1) mod N` from that same base, so
revisits cycle the cell's colour in round-robin order. -/
theorem step_paint_round_robin (ant : Ant) (grid : Grid) (row : Row)
    (c0 : Nat) (d : Direction) (ant' : Ant) (grid' : Grid)
    (h0 : ant.stalled = false)
    (hcols : ant.colours.length = ant.rule.length)
    (hrow : grid.rows[ant.pos_y]? = some row)
    (hcell : row.cells[ant.pos_x]? = some c0)
    (hrule : ant.rule[if c0 = usizeMax then 0 else c0]? = some d)
    (hstep : compute_ant_position ant grid = some (ant', grid')) :
    cellAt grid' ant.pos_x ant.pos_y =
      some (((if c0 = usizeMax then 0 else c0) + 1) % ant.rule.length) ∧
    ant'.facing = (move_ant d grid.rows.length ant).facing ∧
    ant'.pos_x = (move_ant d grid.rows.length ant).pos_x ∧
    ant'.pos_y = (move_ant d grid.rows.length ant).pos_y := by
  rw [compute_ant_position_eq ant grid row c0 d h0 hrow hcell hrule] at hstep
  simp only [Option.some.injEq, Prod.mk.injEq] at hstep
  obtain ⟨ha, hg⟩ := hstep
  subst ha
  subst hg
  have hcp : (if c0 = usizeMax then 0 else c0) < ant.rule.length :=
    (List.getElem?_eq_some_iff.mp hrule).1
  have hxlt : ant.pos_x < row.cells.length :=
    (List.getElem?_eq_some_iff.mp hcell).1
  refine ⟨?_, tick_facing _, tick_pos_x _, tick_pos_y _⟩
  rw [cellAt_set_self grid ant.pos_x ant.pos_y _ row hrow hxlt]
  congr 1
  rw [hcols]
  set cp := if c0 = usizeMax then 0 else c0 with hcpdef
  split
  · next h => rw [h, Nat.mod_self]
  · next h => rw [Nat.mod_eq_of_lt (by omega)]

/-- Witness for `step_paint_round_robin` at the first §8 step. -/
theorem step_paint_round_robin_witness :
    c3Ant.stalled = false ∧
    c3Ant.colours.length = c3Ant.rule.length ∧
    compute_ant_position c3Ant c3Grid = some (c3Ant1, c3Grid1) ∧
    cellAt c3Grid1 c3Ant.pos_x c3Ant.pos_y =
      some (((if usizeMax = usizeMax then 0 else usizeMax) + 1) %
        c3Ant.rule.length) :=
  ⟨rfl, rfl, rfl,
    (step_paint_round_robin c3Ant c3Grid (Row.new 3 usizeMax) usizeMax
      Direction.R c3Ant1 c3Grid1 rfl rfl rfl rfl (by rfl) rfl).1⟩

/-- A one-colour palette for concrete runs. -/
def palette1 : List Colour := [⟨0.5, 0.5, 0.5, 1.0⟩]

/-- An ant at (0,0) facing West whose rule turns Left on colour 0. -/
def c8Ant : Ant :=
  { pos_x := 0, pos_y := 0, rule := [Direction.L], colours := palette1,
    facing := Facing.W, stalled := false, iterations := 0 }

/-- C8 counterexample: at (0,0) facing West with a rule that turns Left, the
step does not stall — the new facing is South and the ant moves to (0,1). -/
theorem west_left_origin_moves_cex :
    c8Ant.pos_x = 0 ∧ c8Ant.pos_y = 0 ∧ c8Ant.facing = Facing.W ∧
    c8Ant.stalled = false ∧ c8Ant.rule[0]? = some Direction.L ∧
    (compute_ant_position c8Ant c3Grid).map
        (fun p => (p.1.pos_x, p.1.pos_y, p.1.facing, p.1.stalled)) =
      some (0, 1, Facing.S, false) :=
  ⟨rfl, rfl, rfl, rfl, rfl, by rfl⟩

/-- C8 (amended): at (0,0) facing West on a cell whose rule lookup yields
Right, a single step stalls the ant immediately without moving it and
without repainting any cell other than the one it occupies. -/
theorem west_right_origin_stalls (ant : Ant) (grid : Grid) (row : Row)
    (c0 : Nat) (ant' : Ant) (grid' : Grid)
    (h0 : ant.stalled = false)
    (hpx : ant.pos_x = 0) (hpy : ant.pos_y = 0)
    (hfac : ant.facing = Facing.W)
    (hrow : grid.rows[ant.pos_y]? = some row)
    (hcell : row.cells[ant.pos_x]? = some c0)
    (hrule : ant.rule[if c0 = usizeMax then 0 else c0]? = some Direction.R)
    (hstep : compute_ant_position ant grid = some (ant', grid')) :
    ant'.stalled = true ∧ ant'.pos_x = 0 ∧ ant'.pos_y = 0 ∧
    (∀ x y, ¬(x = 0 ∧ y = 0) → cellAt grid' x y = cellAt grid x y) := by
  rw [compute_ant_position_eq ant grid row c0 Direction.R h0 hrow hcell hrule]
    at hstep
  simp only [Option.some.injEq, Prod.mk.injEq] at hstep
  obtain ⟨ha, hg⟩ := hstep
  subst ha
  subst hg
  have hm : move_ant Direction.R grid.rows.length ant =
      { ant with facing := Facing.N, stalled := true } := by
    simp only [move_ant, hfac, move_from_west]
    rw [if_pos hpy.symm]
  refine ⟨?_, ?_, ?_, ?_⟩
  · rw [tick_stalled, hm]
    split <;> rfl
  · rw [tick_pos_x, hm]
    exact hpx
  · rw [tick_pos_y, hm]
    exact hpy
  · intro x y hxy
    exact set_cell_frame grid ant.pos_x ant.pos_y _ row hrow x y
      (by rw [hpx, hpy]; exact hxy)

/-- The state of `c8Ant` with the rule turning Right instead. -/
def c8AntR : Ant := { c8Ant with rule := [Direction.R] }

/-- The ant after stepping `c8AntR`: repainted (0,0), stalled at (0,0). -/
def c8AntR1 : Ant :=
  { pos_x := 0, pos_y := 0, rule := [Direction.R], colours := palette1,
    facing := Facing.N, stalled := true, iterations := 1 }

/-- The grid after stepping `c8AntR` on the all-unpainted 3×3 grid. -/
def c8Grid1 : Grid :=
  ⟨[⟨[0, usizeMax, usizeMax]⟩, Row.new 3 usizeMax, Row.new 3 usizeMax]⟩

/-- Witness for `west_right_origin_stalls` at a concrete state. -/
theorem west_right_origin_stalls_witness :
    c8AntR.stalled = false ∧ c8AntR.pos_x = 0 ∧ c8AntR.pos_y = 0 ∧
    c8AntR.facing = Facing.W ∧
    compute_ant_position c8AntR c3Grid = some (c8AntR1, c8Grid1) ∧
    (c8AntR1.stalled = true ∧ c8AntR1.pos_x = 0 ∧ c8AntR1.pos_y = 0 ∧
     (∀ x y, ¬(x = 0 ∧ y = 0) →
       cellAt c8Grid1 x y = cellAt c3Grid x y)) :=
  ⟨rfl, rfl, rfl, rfl, rfl,
    west_right_origin_stalls c8AntR c3Grid (Row.new 3 usizeMax) usizeMax
      c8AntR1 c8Grid1 rfl rfl rfl rfl rfl rfl (by rfl) rfl⟩

/-- C10: a single step changes at most the cell at the ant's pre-step
position; row count, every row's length, and the ant's rule table and colour
list are unchanged. -/
theorem step_frame (ant : Ant) (grid : Grid) (ant' : Ant) (grid' : Grid)
    (hstep : compute_ant_position ant grid = some (ant', grid')) :
    ant'.rule = ant.rule ∧ ant'.colours = ant.colours ∧
    grid'.rows.length = grid.rows.length ∧
    (∀ (y : Nat), (grid'.rows[y]?).map (fun (r : Row) => r.cells.length) =
      (grid.rows[y]?).map (fun (r : Row) => r.cells.length)) ∧
    (∀ x y, ¬(x = ant.pos_x ∧ y = ant.pos_y) →
      cellAt grid' x y = cellAt grid x y) := by
  rcases compute_ant_position_inv ant grid ant' grid' hstep with
    ⟨-, ha, hg⟩ | ⟨row, c0, d, -, hrow, hcell, hrule, ha, hg⟩
  · subst ha
    subst hg
    exact ⟨rfl, rfl, rfl, fun y => rfl, fun x y h => rfl⟩
  · subst ha
    subst hg
    have hylt : ant.pos_y < grid.rows.length :=
      (List.getElem?_eq_some_iff.mp hrow).1
    refine ⟨?_, ?_, ?_, ?_, ?_⟩
    · rw [tick_rule, move_ant_rule]
    · rw [tick_colours, move_ant_colours]
    · exact List.length_set grid.rows ant.pos_y _
    · intro y
      by_cases hy : y = ant.pos_y
      · subst hy
        rw [List.getElem?_set_self hylt, hrow]
        simp
      · rw [List.getElem?_set_ne (fun h => hy h.symm)]
    · exact set_cell_frame grid ant.pos_x ant.pos_y _ row hrow

/-- Witness for `step_frame` at the first §8 step. -/
theorem step_frame_witness :
    compute_ant_position c3Ant c3Grid = some (c3Ant1, c3Grid1) ∧
    (c3Ant1.rule = c3Ant.rule ∧ c3Ant1.colours = c3Ant.colours ∧
     c3Grid1.rows.length = c3Grid.rows.length ∧
     (∀ x y, ¬(x = c3Ant.pos_x ∧ y = c3Ant.pos_y) →
       cellAt c3Grid1 x y = cellAt c3Grid x y)) :=
  ⟨rfl,
    (step_frame c3Ant c3Grid c3Ant1 c3Grid1 rfl).1,
    (step_frame c3Ant c3Grid c3Ant1 c3Grid1 rfl).2.1,
    (step_frame c3Ant c3Grid c3Ant1 c3Grid1 rfl).2.2.1,
    (step_frame c3Ant c3Grid c3Ant1 c3Grid1 rfl).2.2.2.2⟩

/-- C4: a step from a stalled state is a no-op — the ant (position, facing,
iterations, stall flag) and every grid cell are returned unchanged, so the
stalled state is absorbing. -/
theorem stalled_step_noop (ant : Ant) (grid : Grid)
    (h : ant.stalled = true) :
    compute_ant_position ant grid = some (ant, grid) := by
  simp [compute_ant_position, h]

/-- Well-formed grid: square (every row as long as the row count) and every
cell either unpainted or a colour index below `N`. -/
def GridWF (g : Grid) (N : Nat) : Prop :=
  (∀ r ∈ g.rows, r.cells.length = g.rows.length) ∧
  (∀ r ∈ g.rows, ∀ c ∈ r.cells, c = usizeMax ∨ c < N)

instance (g : Grid) (N : Nat) : Decidable (GridWF g N) := by
  unfold GridWF; infer_instance

/-- Well-formed ant: on the board, rule and palette both of length `N`,
counter within the `u64` range. -/
def AntWF (a : Ant) (dim N : Nat) : Prop :=
  a.pos_x < dim ∧ a.pos_y < dim ∧ a.rule.length = N ∧
  a.colours.length = N ∧ a.iterations ≤ u64Max

instance (a : Ant) (dim N : Nat) : Decidable (AntWF a dim N) := by
  unfold AntWF; infer_instance

/-- C7: under the position and cell invariants, every grid access and rule
lookup of the stepper is in bounds (the step never panics), the invariants
are preserved, and a cell holding a colour index below `N` still holds one
after the step. -/
theorem step_safety_invariants (N : Nat) (ant : Ant) (grid : Grid)
    (hN : 1 ≤ N) (hNmax : N ≤ usizeMax)
    (hant : AntWF ant grid.rows.length N) (hgrid : GridWF grid N) :
    (∃ p, compute_ant_position ant grid = some p) ∧
    (∀ ant' grid', compute_ant_position ant grid = some (ant', grid') →
      AntWF ant' grid'.rows.length N ∧ GridWF grid' N ∧
      (∀ x y v, cellAt grid x y = some v → v < N →
        ∃ w, cellAt grid' x y = some w ∧ w < N)) := by
  obtain ⟨hx, hy, hrl, hcl, hit⟩ := hant
  obtain ⟨hsq, hcw⟩ := hgrid
  by_cases h0 : ant.stalled
  · refine ⟨⟨(ant, grid), by simp [compute_ant_position, h0]⟩, ?_⟩
    intro ant' grid' hstep
    simp only [compute_ant_position, h0, if_true, Option.some.injEq,
      Prod.mk.injEq] at hstep
    obtain ⟨ha, hg⟩ := hstep
    subst ha
    subst hg
    exact ⟨⟨hx, hy, hrl, hcl, hit⟩, ⟨hsq, hcw⟩,
      fun x y v hv hlt => ⟨v, hv, hlt⟩⟩
  · rw [Bool.not_eq_true] at h0
    obtain ⟨row, hrow⟩ : ∃ r, grid.rows[ant.pos_y]? = some r :=
      ⟨_, List.getElem?_eq_getElem hy⟩
    have hrmem : row ∈ grid.rows := List.getElem?_mem hrow
    have hrlen : row.cells.length = grid.rows.length := hsq _ hrmem
    have hxr : ant.pos_x < row.cells.length := by
      rw [hrlen]; exact hx
    obtain ⟨c0, hcell⟩ : ∃ c, row.cells[ant.pos_x]? = some c :=
      ⟨_, List.getElem?_eq_getElem hxr⟩
    have hc0 : c0 = usizeMax ∨ c0 < N :=
      hcw _ hrmem _ (List.getElem?_mem hcell)
    have hcp : (if c0 = usizeMax then 0 else c0) < N := by
      rcases hc0 with h | h
      · rw [if_pos h]; omega
      · split
        · omega
        · exact h
    obtain ⟨d, hrule⟩ :
        ∃ d, ant.rule[if c0 = usizeMax then 0 else c0]? = some d :=
      ⟨_, List.getElem?_eq_getElem (by rw [hrl]; exact hcp)⟩
    have hvlt :
        (if ant.colours.length = (if c0 = usizeMax then 0 else c0) + 1
         then 0 else (if c0 = usizeMax then 0 else c0) + 1) < N := by
      rw [hcl]
      set cp := if c0 = usizeMax then 0 else c0
      split
      · omega
      · next h => omega
    rw [compute_ant_position_eq ant grid row c0 d h0 hrow hcell hrule]
    refine ⟨⟨_, rfl⟩, ?_⟩
    intro ant' grid' hstep
    simp only [Option.some.injEq, Prod.mk.injEq] at hstep
    obtain ⟨ha, hg⟩ := hstep
    subst ha
    subst hg
    refine ⟨⟨?_, ?_, ?_, ?_, ?_⟩, ⟨?_, ?_⟩, ?_⟩
    · rw [tick_pos_x]
      simpa using (move_ant_pos_bounds d grid.rows.length ant hx hy).1
    · rw [tick_pos_y]
      simpa using (move_ant_pos_bounds d grid.rows.length ant hx hy).2
    · rw [tick_rule, move_ant_rule]; exact hrl
    · rw [tick_colours, move_ant_colours]; exact hcl
    · rw [tick_iterations, move_ant_iterations]
      split
      · exact hit
      · next h => omega
    · intro r hr
      rcases List.mem_or_eq_of_mem_set hr with h | h
      · rw [List.length_set]; exact hsq r h
      · subst h
        simpa [List.length_set] using hrlen
    · intro r hr c hc
      rcases List.mem_or_eq_of_mem_set hr with h | h
      · exact hcw r h c hc
      · subst h
        rcases List.mem_or_eq_of_mem_set hc with h2 | h2
        · exact hcw row hrmem c h2
        · subst h2
          right
          exact hvlt
    · intro x y v hv hvN
      by_cases hyy : y = ant.pos_y
      · subst hyy
        by_cases hxx : x = ant.pos_x
        · subst hxx
          exact ⟨_, cellAt_set_self grid ant.pos_x ant.pos_y _ row hrow hxr,
            hvlt⟩
        · rw [set_cell_frame grid ant.pos_x ant.pos_y _ row hrow x ant.pos_y
            (fun hcon => hxx hcon.1)]
          exact ⟨v, hv, hvN⟩
      · rw [set_cell_frame grid ant.pos_x ant.pos_y _ row hrow x y
          (fun hcon => hyy hcon.2)]
        exact ⟨v, hv, hvN⟩

/-- Witness for `step_safety_invariants` at the §8 start state with N = 2. -/
theorem step_safety_invariants_witness :
    1 ≤ 2 ∧ 2 ≤ usizeMax ∧ AntWF c3Ant c3Grid.rows.length 2 ∧
    GridWF c3Grid 2 ∧
    (∃ p, compute_ant_position c3Ant c3Grid = some p) :=
  ⟨by decide, by decide, by decide, by decide,
    (step_safety_invariants 2 c3Ant c3Grid (by decide) (by decide)
      (by decide) (by decide)).1⟩

/-- Witness for `stalled_step_noop` at a concrete stalled state. -/
theorem stalled_step_noop_witness :
    ({ c3Ant with stalled := true } : Ant).stalled = true ∧
    compute_ant_position { c3Ant with stalled := true } c3Grid =
      some ({ c3Ant with stalled := true }, c3Grid) :=
  ⟨rfl, stalled_step_noop { c3Ant with stalled := true } c3Grid rfl⟩
